import Mathlib

/-!
Verification development for the royalty reconciliation engine of
`src/parser/royalty_calculator.py` (class `RoyaltyCalculator`).

The Python code is shallowly embedded: strings are Lean `String`
(processed as `List Char`, modelling the ASCII behaviour of the
Python string methods used by the source), currency and percentage
values are `ℚ` (the source computations on them are exact field
operations plus one explicit `round(_, 2)`), dictionaries with
insertion order are association lists, and raising code returns
`Except`/`Option` values.
-/

/-- Decidable equality for `Except`, used to evaluate the embedded
functions on concrete inputs. -/
instance {ε α : Type} [DecidableEq ε] [DecidableEq α] : DecidableEq (Except ε α) :=
  fun x y =>
    match x, y with
    | .ok a, .ok b =>
      match decEq a b with
      | isTrue h => isTrue (h ▸ rfl)
      | isFalse h => isFalse (fun hh => h (by cases hh; rfl))
    | .error a, .error b =>
      match decEq a b with
      | isTrue h => isTrue (h ▸ rfl)
      | isFalse h => isFalse (fun hh => h (by cases hh; rfl))
    | .ok _, .error _ => isFalse (fun hh => Except.noConfusion hh)
    | .error _, .ok _ => isFalse (fun hh => Except.noConfusion hh)

/-- Python `str.lower()` restricted to its ASCII action, which is all the
source exercises: every character is mapped through `Char.toLower`. -/
def pyLower (s : String) : String :=
  String.mk (s.toList.map Char.toLower)

/-- Python `str.strip()`: remove leading and trailing whitespace. -/
def pyStrip (s : String) : String :=
  String.mk (((s.toList.dropWhile Char.isWhitespace).reverse.dropWhile
    Char.isWhitespace).reverse)

/-- Python membership test `needle in hay` on strings: `needle` occurs as a
contiguous substring of `hay`. -/
def pyIn (needle hay : String) : Bool :=
  hay.toList.tails.any (fun t => needle.toList.isPrefixOf t)

/-- Value of a list of decimal digit characters. -/
def digitsToNat (cs : List Char) : Nat :=
  cs.foldl (fun n c => n * 10 + (c.toNat - 48)) 0

/-- Python `float(s)` on the string forms the statement rows can contain:
optional sign, decimal digits with an optional fractional part.  Returns
`none` where Python raises `ValueError` (e.g. on `"Home"`).  Exponent and
infinity forms are not modelled; no source input uses them. -/
def pyFloatOfString (s : String) : Option ℚ :=
  let cs := (pyStrip s).toList
  let signAndRest : ℤ × List Char :=
    match cs with
    | '-' :: r => (-1, r)
    | '+' :: r => (1, r)
    | _ => (1, cs)
  let sign := signAndRest.1
  let body := signAndRest.2
  let intPart := body.takeWhile Char.isDigit
  let rest := body.dropWhile Char.isDigit
  match rest with
  | [] =>
    if intPart.isEmpty then none
    else some (Rat.divInt (sign * (digitsToNat intPart : ℤ)) 1)
  | '.' :: frac =>
    if frac.all Char.isDigit ∧ ¬ (intPart.isEmpty ∧ frac.isEmpty) then
      some (Rat.divInt
        (sign * ((digitsToNat intPart : ℤ) * 10 ^ frac.length + (digitsToNat frac : ℤ)))
        (10 ^ frac.length))
    else none
  | _ => none

/-- Index of the first `)` in `cs` that is not preceded by a newline, if
any; the newline guard mirrors the fact that `.` in the source regex
`\(.*?\)` does not match `\n`. -/
def findCloseIdx (cs : List Char) : Option Nat :=
  match cs.findIdx? (fun c => c = ')' ∨ c = '\n') with
  | some i => if cs.getD i ' ' = ')' then some i else none
  | none => none

/-- Core of `re.sub(r"\(.*?\)", "", name)`: scan left to right; at a `(`
with a matching `)` ahead (no intervening newline), delete through that
`)` and continue after it; a `(` with no such `)` is kept literally.  The
`fuel` argument (instantiated with the list length, which never increases
across recursive calls) keeps the recursion structural so that the kernel
can evaluate the function. -/
def stripParensAux : Nat → List Char → List Char
  | 0, cs => cs
  | _ + 1, [] => []
  | fuel + 1, c :: rest =>
    if c = '(' then
      match findCloseIdx rest with
      | some i => stripParensAux fuel (rest.drop (i + 1))
      | none => '(' :: stripParensAux fuel rest
    else c :: stripParensAux fuel rest

/-- The regex substitution `re.sub(r"\(.*?\)", "", s)` used by
`merge_contracts.normalize_name`. -/
def stripParens (s : String) : String :=
  String.mk (stripParensAux s.toList.length s.toList)

/-- Name normalization as the spec words it (the `normalize(text)`
function of its merger section, which claim C1 restates as: strip
parenthesized substrings, trim, lower-case; empty for null/empty input).
This is a spec-side comparison definition: the code the spec describes,
`normalize_name` at royalty_calculator.py lines 244-249, is *written* to
compute this value but never does at runtime — the module does not import
`re`, so the `re.sub` call raises `NameError` on every non-empty name.
The runtime behaviour is `normalize_name_py` below; this definition is
used only to state claim-side identity keys. -/
def specNormalize (name : String) : String :=
  if name = "" then "" else pyLower (pyStrip (stripParens name))

/-- Sum of two rationals computed on numerators and denominators: equal
to `a + b` (theorem `qAdd_eq` below) but evaluable by the kernel. -/
def qAdd (a b : ℚ) : ℚ :=
  Rat.divInt (a.num * (b.den : ℤ) + b.num * (a.den : ℤ)) ((a.den : ℤ) * (b.den : ℤ))

/-- Product of two rationals computed on numerators and denominators:
equal to `a * b` (theorem `qMul_eq` below) but, unlike the library
multiplication, evaluable by the kernel on closed inputs. -/
def qMul (a b : ℚ) : ℚ :=
  Rat.divInt (a.num * b.num) ((a.den : ℤ) * (b.den : ℤ))

/-- Quotient of two rationals computed on numerators and denominators:
equal to `a / b` (theorem `qDiv_eq` below) but evaluable by the kernel. -/
def qDiv (a b : ℚ) : ℚ :=
  Rat.divInt (a.num * (b.den : ℤ)) ((a.den : ℤ) * b.num)

/-- Python 3 `round(x)` on exact values: round half to even, computed on
the reduced fraction `x.num / x.den` in integer arithmetic (`f` is the
floor, `rem` the remainder, and the comparisons of `rem / den` with
`1 / 2` are cleared of denominators). -/
def pyRoundHalfEven (x : ℚ) : ℤ :=
  let f := Int.fdiv x.num x.den
  let rem := x.num - f * (x.den : ℤ)
  if 2 * rem < (x.den : ℤ) then f
  else if (x.den : ℤ) < 2 * rem then f + 1
  else if f % 2 = 0 then f else f + 1

/-- Python `round(x, 2)` on exact values (the source applies it to a
binary double; on the decimal fractions the contracts carry the two
agree): `round(x * 100) / 100` with round-half-even. -/
def pyRound2 (q : ℚ) : ℚ :=
  Rat.divInt (pyRoundHalfEven (qMul q 100)) 100

/-- Dataclass `Party` of contract_parser.py. -/
structure Party where
  name : String
  role : String
  additional_info : Option String := none
deriving DecidableEq, Repr

/-- Dataclass `Work` of contract_parser.py. -/
structure Work where
  title : String
  work_type : String
  additional_info : Option String := none
deriving DecidableEq, Repr

/-- Dataclass `RoyaltyShare` of contract_parser.py. -/
structure RoyaltyShare where
  party_name : String
  royalty_type : String
  percentage : ℚ
  terms : Option String := none
deriving DecidableEq, Repr

/-- Dataclass `ContractData` of contract_parser.py (the `raw_text` field
is irrelevant to the engine and omitted). -/
structure ContractData where
  parties : List Party
  works : List Work
  royalty_shares : List RoyaltyShare
  contract_summary : Option String := none
deriving DecidableEq, Repr

/-- Dataclass `RoyaltyPayment` of royalty_calculator.py. -/
structure RoyaltyPayment where
  song_title : String
  party_name : String
  role : String
  royalty_type : String
  percentage : ℚ
  total_royalty : ℚ
  amount_to_pay : ℚ
deriving DecidableEq, Repr

/-- Exact-match predicate of stage 1 of `_find_matching_song`
(lines 435-437): `title.lower().strip() == song_title.lower().strip()`. -/
def exactPredicate (song_title : String) (ta : String × ℚ) : Bool :=
  pyStrip (pyLower ta.1) == pyStrip (pyLower song_title)

/-- Substring predicate of stage 2 of `_find_matching_song`
(lines 440-442): `song_title_lower in title.lower() or title.lower() in
song_title_lower` (the statement title is lower-cased but not stripped
here, exactly as in the source). -/
def substrPredicate (song_title : String) (ta : String × ℚ) : Bool :=
  pyIn (pyStrip (pyLower song_title)) (pyLower ta.1) ||
    pyIn (pyLower ta.1) (pyStrip (pyLower song_title))

/-- `RoyaltyCalculator._find_matching_song` (lines 425-444).  The Python
not-found signal `(None, 0.0)` is modelled as `none`; a hit returns the
statement `(title, amount)` pair first reached in dictionary iteration
(= insertion) order. -/
def find_matching_song (song_title : String) (song_totals : List (String × ℚ)) :
    Option (String × ℚ) :=
  match song_totals.find? (exactPredicate song_title) with
  | some ta => some ta
  | none => song_totals.find? (substrPredicate song_title)

/-- Error outcomes of `calculate_payments_from_data`: the source raises
`ValueError` with distinct messages at lines 319-322 and 327-328; the
spec names these `InvalidContractDataError` and `EmptyStatementError`. -/
inductive CalcError where
  | invalidContractData
  | emptyStatement
deriving DecidableEq, Repr

/-- Streaming filter of lines 331-334: shares whose `royalty_type`
contains the substring `"streaming"` after lower-casing. -/
def streamingShares (contract_data : ContractData) : List RoyaltyShare :=
  contract_data.royalty_shares.filter
    (fun share => pyIn "streaming" (pyLower share.royalty_type))

/-- Payment record construction of lines 352-369: the role comes from the
first party whose lower-cased name equals the lower-cased share party
name, defaulting to `"Unknown"`, and the amount is
`total_royalty * (share.percentage / 100.0)`. -/
def mkPayment (contract_data : ContractData) (work : Work) (total_royalty : ℚ)
    (share : RoyaltyShare) : RoyaltyPayment :=
  let party := contract_data.parties.find?
    (fun p => pyLower p.name == pyLower share.party_name)
  { song_title := work.title
    party_name := share.party_name
    role := (party.map Party.role).getD "Unknown"
    royalty_type := share.royalty_type
    percentage := share.percentage
    total_royalty := total_royalty
    amount_to_pay := qMul total_royalty (qDiv share.percentage 100) }

/-- Per-work step of the payment loop (lines 344-375): `if matching_song:`
is Python truthiness of the matched title, so a match whose title is the
empty string contributes nothing, like the not-found signal. -/
def paymentStep (contract_data : ContractData) (song_totals : List (String × ℚ))
    (payments : List RoyaltyPayment) (work : Work) : List RoyaltyPayment :=
  match find_matching_song work.title song_totals with
  | some (matching_song, total_royalty) =>
    if matching_song ≠ "" then
      payments ++ (streamingShares contract_data).map
        (mkPayment contract_data work total_royalty)
    else payments
  | none => payments

/-- `RoyaltyCalculator.calculate_payments_from_data` (lines 294-379) with
the statement aggregate passed in directly (the file-reading step it
delegates to `read_royalty_statement` is embedded separately). -/
def calculate_payments_from_data (contract_data : ContractData)
    (song_totals : List (String × ℚ)) : Except CalcError (List RoyaltyPayment) :=
  if contract_data.works = [] then .error .invalidContractData
  else if contract_data.royalty_shares = [] then .error .invalidContractData
  else if song_totals = [] then .error .emptyStatement
  else if streamingShares contract_data = [] then .ok []
  else .ok (contract_data.works.foldl (paymentStep contract_data song_totals) [])

/-- Cell values a worksheet can hand the ingestor: `empty` is the Python
`None` an empty cell reads as. -/
inductive Cell where
  | empty
  | str (s : String)
  | num (q : ℚ)
deriving DecidableEq, Repr

/-- Python truthiness of a cell value (`if cell.value:`): `None`, `""`
and `0` are falsy. -/
def pyTruthy : Cell → Bool
  | .empty => false
  | .str s => s ≠ ""
  | .num q => q ≠ 0

/-- Python `str()` of a cell value.  Numeric cells are rendered through
`toString`, an approximation of the CPython float repr that no theorem
below depends on; title and header cells in every input considered are
strings. -/
def pyStr : Cell → String
  | .empty => "None"
  | .str s => s
  | .num q => toString q

/-- Python `float()` of a cell value as used at line 105: numbers pass
through, strings are parsed, `None` raises `TypeError` (caught by the
`except (ValueError, TypeError)` and modelled as `none`). -/
def pyFloat : Cell → Option ℚ
  | .empty => none
  | .str s => pyFloatOfString s
  | .num q => some q

/-- Header extraction of lines 74-77: every truthy first-row cell is
stringified, stripped and lower-cased; falsy (blank) cells are dropped
from the list entirely. -/
def extract_headers (headerRow : List Cell) : List String :=
  headerRow.filterMap
    (fun cell => if pyTruthy cell then some (pyLower (pyStrip (pyStr cell))) else none)

/-- The `title_variations` list of `_find_title_column` (lines 120-121). -/
def title_variations : List String :=
  ["release title", "title", "song title", "track title",
   "song name", "track name", "release name", "track"]

/-- `RoyaltyCalculator._find_title_column` (lines 118-128): first header
containing any title synonym; `none` models the `ValueError` raise. -/
def find_title_column (headers : List String) : Option String :=
  headers.find? (fun header => title_variations.any (fun v => pyIn v header))

/-- The `priority_variations` list of `_find_payable_column`
(lines 133-139). -/
def priority_variations : List String :=
  ["net payable", "net payment", "total payable", "net revenue", "net amount"]

/-- The `general_variations` list of `_find_payable_column` (line 149). -/
def general_variations : List String :=
  ["payable", "amount", "earnings", "payment"]

/-- Pass-1 test of `_find_payable_column` (lines 142-146): the header
equals or contains a priority synonym. -/
def payablePass1 (header : String) : Bool :=
  priority_variations.any (fun v => v == header || pyIn v header)

/-- Pass-2 test of `_find_payable_column` (lines 151-156): the header
contains a general synonym and none of the excluded words. -/
def payablePass2 (header : String) : Bool :=
  general_variations.any (fun v => pyIn v header && !pyIn "withheld" header &&
    !pyIn "deduction" header && !pyIn "fee" header)

/-- `RoyaltyCalculator._find_payable_column` (lines 130-158): pass 1
returns the first header equal to or containing a priority synonym;
pass 2 returns the first header containing a general synonym and none of
`"withheld"`, `"deduction"`, `"fee"`; `none` models the `ValueError`
raise. -/
def find_payable_column (headers : List String) : Option String :=
  match headers.find? payablePass1 with
  | some header => some header
  | none => headers.find? payablePass2

/-- Dictionary update `song_totals[title] = song_totals.get(title, 0.0) +
amount` on an insertion-ordered association list. -/
def addTotal (totals : List (String × ℚ)) (title : String) (amount : ℚ) :
    List (String × ℚ) :=
  if totals.any (fun p => p.1 == title) then
    totals.map (fun p => if p.1 == title then (p.1, qAdd p.2 amount) else p)
  else totals ++ [(title, amount)]

/-- Per-row step of the aggregation loop (lines 101-108): the row is
consulted at the positions the detected columns occupy in the *filtered*
header list (this is what the source `headers.index` yields), the title
cell must be truthy and the payable cell non-`None`, and a payable cell
`float()` cannot parse is skipped. -/
def rowStep (title_idx payable_idx : Nat) (totals : List (String × ℚ))
    (row : List Cell) : List (String × ℚ) :=
  let tcell := row.getD title_idx .empty
  let pcell := row.getD payable_idx .empty
  if pyTruthy tcell && !(pcell == Cell.empty) then
    match pyFloat pcell with
    | some amount => addTotal totals (pyStrip (pyStr tcell)) amount
    | none => totals
  else totals

/-- `RoyaltyCalculator.read_royalty_statement` (lines 56-116) over an
in-memory sheet: `headerRow` is worksheet row 1, `dataRows` the remaining
rows (each padded by openpyxl to the sheet width, hence the `getD`).
`.error` collapses the distinct `ValueError` raises (column not found /
column not in headers), which the source wraps in a generic `Exception`
anyway. -/
def read_royalty_statement (headerRow : List Cell) (dataRows : List (List Cell))
    (title_column payable_column : Option String) :
    Except String (List (String × ℚ)) :=
  let headers := extract_headers headerRow
  match (match title_column with
         | some t => some (pyLower t)
         | none => find_title_column headers) with
  | none => .error "ColumnNotFoundError: title column"
  | some tc =>
    match (match payable_column with
           | some t => some (pyLower t)
           | none => find_payable_column headers) with
    | none => .error "ColumnNotFoundError: payable column"
    | some pc =>
      match headers.findIdx? (fun h => h == tc), headers.findIdx? (fun h => h == pc) with
      | some title_idx, some payable_idx =>
        .ok (dataRows.foldl (rowStep title_idx payable_idx) [])
      | _, _ => .error "ValueError: Could not find required columns"

/-- Dynamic (Python-typed) value of the `percentage` field, for the
behaviour of `merge_contracts` on malformed extraction output. -/
inductive PyVal where
  | vNone
  | vStr (s : String)
  | vNum (q : ℚ)
deriving DecidableEq, Repr

/-- Party with the field types Python actually guarantees at runtime. -/
structure PyParty where
  name : Option String
  role : String
deriving DecidableEq, Repr

/-- Work with a possibly-`None` title. -/
structure PyWork where
  title : Option String
deriving DecidableEq, Repr

/-- Royalty share with the field values malformed extraction can
produce. -/
structure PyShare where
  party_name : Option String
  royalty_type : Option String
  percentage : PyVal
deriving DecidableEq, Repr

/-- ContractData over the dynamic record types. -/
structure PyContractData where
  parties : List PyParty
  works : List PyWork
  royalty_shares : List PyShare
  contract_summary : Option String := none
deriving DecidableEq, Repr

/-- Python exceptions `merge_contracts` can raise. -/
inductive PyErr where
  | nameError
  | attributeError
  | valueError
  | typeError
deriving DecidableEq, Repr

/-- Runtime behaviour of the `normalize_name` helper: `if not name:
return ""` succeeds, but the following `re.sub(...)` raises `NameError`
because royalty_calculator.py (imports at lines 15-27) never imports
`re`.  Every non-empty name therefore raises. -/
def normalize_name_py (name : Option String) : Except PyErr String :=
  match name with
  | none => .ok ""
  | some s => if s = "" then .ok "" else .error .nameError

/-- Runtime party-loop body of `merge_contracts` (lines 259-263): the
name is normalized (raising on any truthy name), then the party is
appended when the normalized name is non-empty and unseen. -/
def addPartyPy (acc : List PyParty × List String) (p : PyParty) :
    Except PyErr (List PyParty × List String) :=
  match normalize_name_py p.name with
  | .error e => .error e
  | .ok norm =>
    .ok (if norm ≠ "" ∧ norm ∉ acc.2 then (acc.1 ++ [p], acc.2 ++ [norm]) else acc)

/-- Work identity key of line 267: `(w.title or "").strip().lower()`
(never raises; `None` titles become the empty string). -/
def workKeyPy (w : PyWork) : String :=
  pyLower (pyStrip (w.title.getD ""))

/-- Pure part of the work-loop body (lines 266-270): append the work and
record its key when the key is non-empty and unseen. -/
def addWorkPure (acc : List PyWork × List String) (w : PyWork) :
    List PyWork × List String :=
  if workKeyPy w ≠ "" ∧ workKeyPy w ∉ acc.2 then (acc.1 ++ [w], acc.2 ++ [workKeyPy w])
  else acc

/-- Runtime work-loop body of `merge_contracts`: the work loop raises
nothing. -/
def addWorkPy (acc : List PyWork × List String) (w : PyWork) :
    Except PyErr (List PyWork × List String) :=
  pure (addWorkPure acc w)

/-- Evaluation of the share identity tuple of lines 274-278, raising as
the source does, left to right: `normalize_name(r.party_name)` raises
`NameError` on a non-empty name, `r.royalty_type.lower()` raises
`AttributeError` on `None`, `float(r.percentage)` raises `ValueError` on
a non-numeric string and `TypeError` on `None`. -/
def shareKeyEval (r : PyShare) : Except PyErr (String × String × ℚ) :=
  match normalize_name_py r.party_name with
  | .error e => .error e
  | .ok norm =>
    match r.royalty_type with
    | none => .error .attributeError
    | some t =>
      match r.percentage with
      | .vNum q => .ok (norm, pyStrip (pyLower t), pyRound2 q)
      | .vStr s =>
        match pyFloatOfString s with
        | some q => .ok (norm, pyStrip (pyLower t), pyRound2 q)
        | none => .error .valueError
      | .vNone => .error .typeError

/-- Numeric value `float(r.percentage)` takes where it succeeds
(defaulted elsewhere; used only through `shareKeyPy` on inputs where
`shareKeyEval` succeeds, and in the spec-side key). -/
def pctOf : PyVal → ℚ
  | .vNum q => q
  | .vStr s => (pyFloatOfString s).getD 0
  | .vNone => 0

/-- The value `shareKeyEval` returns whenever it succeeds: the party
component is then necessarily `""` (any truthy party name raises). -/
def shareKeyPy (r : PyShare) : String × String × ℚ :=
  ("", pyStrip (pyLower (r.royalty_type.getD "")), pyRound2 (pctOf r.percentage))

/-- Pure part of the share-loop body (lines 279-281): append the share
and record its evaluated key when unseen. -/
def addSharePure (acc : List PyShare × List (String × String × ℚ)) (r : PyShare)
    (key : String × String × ℚ) : List PyShare × List (String × String × ℚ) :=
  if key ∉ acc.2 then (acc.1 ++ [r], acc.2 ++ [key]) else acc

/-- Runtime share-loop body of `merge_contracts` (lines 273-281). -/
def addSharePy (acc : List PyShare × List (String × String × ℚ)) (r : PyShare) :
    Except PyErr (List PyShare × List (String × String × ℚ)) :=
  match shareKeyEval r with
  | .error e => .error e
  | .ok key => .ok (addSharePure acc r key)

/-- Share identity key as claim C1 words it: both the party-name and the
royalty-type components pass through the parenthetical-stripping spec
normalize (the source key lower-cases and strips the royalty type but
never strips parentheses from it); percentage as `float` reads it,
rounded to two decimals.  Spec-side comparison definition. -/
def specShareKey (r : PyShare) : String × String × ℚ :=
  (specNormalize (r.party_name.getD ""), specNormalize (r.royalty_type.getD ""),
   pyRound2 (pctOf r.percentage))

/-- Party identity key as the claims word it: the spec normalize of the
name (empty for `None`).  Spec-side comparison definition. -/
def specPartyKey (p : PyParty) : String :=
  specNormalize (p.name.getD "")

/-- The merge loop state: the party, work and share accumulators, each a
merged list paired with its seen-key list. -/
abbrev MergeStatePy :=
  (List PyParty × List String) × (List PyWork × List String) ×
    (List PyShare × List (String × String × ℚ))

/-- Initial merge state: empty lists, empty seen sets (lines 238-253). -/
def mergeInit : MergeStatePy := (([], []), ([], []), ([], []))

/-- One iteration of the `for contract in contracts` loop (lines
255-281): the party loop, then the work loop, then the share loop, each
able to raise and aborting the following ones when it does. -/
def processContractPy (acc : MergeStatePy) (c : PyContractData) :
    Except PyErr MergeStatePy :=
  match c.parties.foldlM addPartyPy acc.1 with
  | .error e => .error e
  | .ok pAcc =>
    match c.works.foldlM addWorkPy acc.2.1 with
    | .error e => .error e
    | .ok wAcc =>
      match c.royalty_shares.foldlM addSharePy acc.2.2 with
      | .error e => .error e
      | .ok sAcc => .ok (pAcc, wAcc, sAcc)

/-- Runtime behaviour of `RoyaltyCalculator.merge_contracts` (lines
231-292) over the dynamic record types: contracts processed in input
order, loops in source order within each contract, exceptions propagated
where the source raises; on success the merged record is assembled with
the concatenated summary of lines 256 and 283. -/
def merge_contracts_py (contracts : List PyContractData) :
    Except PyErr PyContractData :=
  match contracts.foldlM processContractPy mergeInit with
  | .error e => .error e
  | .ok acc =>
    let summaries := contracts.map (fun c => c.contract_summary.getD "")
    .ok { parties := acc.1.1
          works := acc.2.1.1
          royalty_shares := acc.2.2.1
          contract_summary :=
            some (String.intercalate "\n" (summaries.filter (fun s => pyStrip s ≠ ""))) }

/-- Whether a work produces payments under the `if matching_song:` test of
line 348: the matcher must return a pair whose matched title is truthy
(non-empty). -/
def matchedTruthy (song_totals : List (String × ℚ)) (w : Work) : Bool :=
  match find_matching_song w.title song_totals with
  | some ta => ta.1 != ""
  | none => false

/-- Contract of Example 1 of the spec: one Work `"Home"`, streaming
shares Alice 60 and Bob 40. -/
def exampleContract : ContractData :=
  { parties := []
    works := [{ title := "Home", work_type := "Song" }]
    royalty_shares :=
      [{ party_name := "Alice", royalty_type := "streaming", percentage := 60 },
       { party_name := "Bob", royalty_type := "streaming", percentage := 40 }]
    contract_summary := none }

/-- Statement aggregate of Example 1 of the spec. -/
def exampleStatement : List (String × ℚ) := [("Home", 1000)]

/-- Records the engine emits on Example 1. -/
def examplePaymentA : RoyaltyPayment :=
  { song_title := "Home", party_name := "Alice", role := "Unknown"
    royalty_type := "streaming", percentage := 60, total_royalty := 1000
    amount_to_pay := 600 }

/-- Second record the engine emits on Example 1. -/
def examplePaymentB : RoyaltyPayment :=
  { song_title := "Home", party_name := "Bob", role := "Unknown"
    royalty_type := "streaming", percentage := 40, total_royalty := 1000
    amount_to_pay := 400 }

/-- Contract whose single work has an empty title: the matcher finds the
empty statement title, but the `if matching_song:` truthiness test drops
the match. -/
def blankTitleContract : ContractData :=
  { parties := []
    works := [{ title := "", work_type := "Song" }]
    royalty_shares :=
      [{ party_name := "Alice", royalty_type := "streaming", percentage := 60 }]
    contract_summary := none }

/-- Statement aggregate keyed by an empty title (a title cell of blanks
strips to the empty string during ingestion). -/
def blankTitleStatement : List (String × ℚ) := [("", 5)]

/-- Contract with no works, no shares, no parties. -/
def emptyContract : ContractData :=
  { parties := [], works := [], royalty_shares := [], contract_summary := none }

/-- Contract with a work and a share, but no streaming-type share. -/
def publishingContract : ContractData :=
  { parties := []
    works := [{ title := "Home", work_type := "Song" }]
    royalty_shares :=
      [{ party_name := "Alice", royalty_type := "publishing", percentage := 50 }]
    contract_summary := none }

/-- Ordinary extraction output: one party with a non-empty name. -/
def janeDoePyContract : PyContractData :=
  { parties := [{ name := some "Jane Doe", role := "artist" }]
    works := []
    royalty_shares := []
    contract_summary := none }

/-- Extraction output with a `None` royalty type. -/
def noneTypePyContract : PyContractData :=
  { parties := []
    works := []
    royalty_shares := [{ party_name := none, royalty_type := none, percentage := .vNum 50 }]
    contract_summary := none }

/-- Extraction output with a non-numeric percentage string. -/
def strPctPyContract : PyContractData :=
  { parties := []
    works := []
    royalty_shares :=
      [{ party_name := none, royalty_type := some "streaming", percentage := .vStr "N/A" }]
    contract_summary := none }

/-- Header row whose first cell is blank: the data columns sit at sheet
positions 1 and 2, but the filtered header list places the detected
columns at positions 0 and 1. -/
def blankHeaderRow : List Cell := [.empty, .str "Title", .str "Net Payable"]

/-- The same sheet with the first column properly labelled. -/
def fullHeaderRow : List Cell := [.str "Id", .str "Title", .str "Net Payable"]

/-- One data row: an index string, the song title, the payable amount. -/
def exampleDataRows : List (List Cell) := [[.str "x", .str "Home", .num 100]]

/-- The block of records one work contributes to the payment list (the
body of lines 344-375 for a single work): the streaming-share-mapped
records when the matched title is truthy, nothing otherwise. -/
def workPayments (contract_data : ContractData) (song_totals : List (String × ℚ))
    (work : Work) : List RoyaltyPayment :=
  match find_matching_song work.title song_totals with
  | some (matching_song, total_royalty) =>
    if matching_song ≠ "" then
      (streamingShares contract_data).map (mkPayment contract_data work total_royalty)
    else []
  | none => []

/-- Contract whose two royalty shares differ only inside a parenthesized
part of the royalty type and whose party names are falsy (so the merge
returns instead of raising): distinct under the source key, identical
under the spec wording of the claim C1 key. -/
def dupTypePyContract : PyContractData :=
  { parties := []
    works := []
    royalty_shares :=
      [{ party_name := none
         royalty_type := some "streaming (digital)"
         percentage := .vNum 50 },
       { party_name := none
         royalty_type := some "streaming (physical)"
         percentage := .vNum 50 }]
    contract_summary := none }

/-- The record `merge_contracts` returns on `[dupTypePyContract]`. -/
def dupTypeMerged : PyContractData :=
  { parties := []
    works := []
    royalty_shares := dupTypePyContract.royalty_shares
    contract_summary := some "" }

/-- Extraction output the merge accepts at runtime: falsy party names,
duplicate work titles up to trim/case, shares of distinct types. -/
def falsyNamesPyContract : PyContractData :=
  { parties := [{ name := none, role := "artist" }]
    works := [{ title := some "Home" }, { title := some "home " }, { title := some "Away" }]
    royalty_shares :=
      [{ party_name := none, royalty_type := some "streaming", percentage := .vNum 50 },
       { party_name := some "", royalty_type := some "Publishing", percentage := .vStr "25.5" }]
    contract_summary := some "two uploads" }

/-- The record `merge_contracts` returns on `[falsyNamesPyContract]`. -/
def falsyMerged : PyContractData :=
  { parties := []
    works := [{ title := some "Home" }, { title := some "Away" }]
    royalty_shares := falsyNamesPyContract.royalty_shares
    contract_summary := some "two uploads" }

/-- Extraction output with named contributors, a work and a streaming
share: the ordinary case the no-contributor-dropped claim describes. -/
def bandPyContract : PyContractData :=
  { parties := [{ name := some "Jane Doe", role := "artist" },
                { name := some "John Smith", role := "producer" }]
    works := [{ title := some "Home" }]
    royalty_shares :=
      [{ party_name := some "Jane Doe", royalty_type := some "streaming",
         percentage := .vNum 50 }]
    contract_summary := none }

/-- The kernel-evaluable sum agrees with the library addition. -/
theorem qAdd_eq (a b : ℚ) : qAdd a b = a + b := by
  rw [qAdd, ← Rat.divInt_add_divInt _ _ (Int.natCast_ne_zero.mpr a.den_nz)
    (Int.natCast_ne_zero.mpr b.den_nz), Rat.num_divInt_den, Rat.num_divInt_den]

/-- The kernel-evaluable product agrees with the library multiplication. -/
theorem qMul_eq (a b : ℚ) : qMul a b = a * b := by
  rw [qMul, ← Rat.divInt_mul_divInt', Rat.num_divInt_den, Rat.num_divInt_den]

/-- The kernel-evaluable quotient agrees with the library division. -/
theorem qDiv_eq (a b : ℚ) : qDiv a b = a / b := by
  rw [qDiv, ← Rat.divInt_div_divInt, Rat.num_divInt_den, Rat.num_divInt_den]

/-- A property of single elements preserved by every fold step is
preserved by the whole fold. -/
theorem foldl_pres {S A : Type} {f : S → A → S} {P : S → A → Prop}
    (h2 : ∀ s a b, P s a → P (f s b) a) :
    ∀ (l : List A) (s : S) (a : A), P s a → P (l.foldl f s) a := by
  intro l
  induction l with
  | nil => intro s a h; exact h
  | cons x xs ih => intro s a h; exact ih (f s x) a (h2 s a x h)

/-- Every element of the folded list satisfies, at the final state, a
property its own step establishes and later steps preserve. -/
theorem foldl_all {S A : Type} {f : S → A → S} {P : S → A → Prop}
    (h2 : ∀ s a b, P s a → P (f s b) a) (h3 : ∀ s a, P (f s a) a) :
    ∀ (l : List A) (s : S) (a : A), a ∈ l → P (l.foldl f s) a := by
  intro l
  induction l with
  | nil => intro s a h; cases h
  | cons x xs ih =>
    intro s a h
    rcases List.mem_cons.mp h with h | h
    · rw [h]; exact foldl_pres h2 xs (f s x) x (h3 s x)
    · exact ih (f s x) a h

/-- A fold over elements its state already absorbs is the identity. -/
theorem foldl_fixed {S A : Type} {f : S → A → S} {P : S → A → Prop}
    (h1 : ∀ s a, P s a → f s a = s) :
    ∀ (l : List A) (s : S), (∀ a ∈ l, P s a) → l.foldl f s = s := by
  intro l
  induction l with
  | nil => intro s _; rfl
  | cons x xs ih =>
    intro s h
    have hx : f s x = s := h1 s x (h x (List.mem_cons_self x xs))
    rw [List.foldl_cons, hx]
    exact ih s (fun a ha => h a (List.mem_cons_of_mem x ha))

/-- Folding the same list a second time changes nothing when each step
leaves absorbed elements alone, absorbs its own element, and preserves
absorption. -/
theorem foldl_twice {S A : Type} {f : S → A → S} {P : S → A → Prop}
    (h1 : ∀ s a, P s a → f s a = s)
    (h2 : ∀ s a b, P s a → P (f s b) a) (h3 : ∀ s a, P (f s a) a)
    (l : List A) (s : S) : List.foldl f (List.foldl f s l) l = List.foldl f s l :=
  foldl_fixed h1 l (List.foldl f s l) (fun a ha => foldl_all h2 h3 l s a ha)

/-- A state-only invariant preserved by every step is preserved by the
fold. -/
theorem foldl_state_inv {S A : Type} {f : S → A → S} {Q : S → Prop}
    (h : ∀ s a, Q s → Q (f s a)) :
    ∀ (l : List A) (s : S), Q s → Q (l.foldl f s) := by
  intro l
  induction l with
  | nil => intro s h0; exact h0
  | cons x xs ih => intro s h0; exact ih (f s x) (h s x h0)

/-- Bind of a success on `Except` applies the continuation. -/
theorem exbind_ok {E A B : Type} (a : A) (f : A → Except E B) :
    ((Except.ok a : Except E A) >>= f) = f a := rfl

/-- Bind of a failure on `Except` propagates the failure. -/
theorem exbind_error {E A B : Type} (e : E) (f : A → Except E B) :
    ((Except.error e : Except E A) >>= f) = .error e := rfl

/-- Bind of `pure` on `Except` applies the continuation. -/
theorem expure_bind {E A B : Type} (a : A) (f : A → Except E B) :
    ((pure a : Except E A) >>= f) = f a := rfl

/-- On `Except`, `pure` is `ok`. -/
theorem expure_eq_ok {E A : Type} (a : A) : (pure a : Except E A) = .ok a := rfl

/-- The only value `normalize_name` can return at runtime is the empty
string: every truthy name raises before producing one. -/
theorem normalize_name_py_ok (n : Option String) (v : String)
    (h : normalize_name_py n = .ok v) : v = "" := by
  cases n with
  | none => injection h with h; exact h.symm
  | some s =>
    simp only [normalize_name_py] at h
    by_cases hs : s = ""
    · rw [if_pos hs] at h; injection h with h; exact h.symm
    · rw [if_neg hs] at h; exact Except.noConfusion h

/-- A monadic fold over elements its state absorbs succeeds with the
state unchanged. -/
theorem mfoldlM_fixed {S A E : Type} (f : S → A → Except E S) :
    ∀ (l : List A) (s : S), (∀ a ∈ l, f s a = .ok s) → l.foldlM f s = .ok s := by
  intro l
  induction l with
  | nil => intro s _; rfl
  | cons x xs ih =>
    intro s h
    rw [List.foldlM_cons, h x (List.mem_cons_self x xs), exbind_ok]
    exact ih s (fun a ha => h a (List.mem_cons_of_mem x ha))

/-- A state invariant preserved by every successful step of a monadic
fold is preserved by a successful fold. -/
theorem mfoldlM_inv {S A E : Type} (f : S → A → Except E S) (Q : S → Prop)
    (hf : ∀ s a s', f s a = .ok s' → Q s → Q s') :
    ∀ (l : List A) (s s' : S), l.foldlM f s = .ok s' → Q s → Q s' := by
  intro l
  induction l with
  | nil => intro s s' h hq; injection h with h; rw [← h]; exact hq
  | cons x xs ih =>
    intro s s' h hq
    rcases hx : f s x with e | s1
    · rw [List.foldlM_cons, hx, exbind_error] at h; exact Except.noConfusion h
    · rw [List.foldlM_cons, hx, exbind_ok] at h
      exact ih s1 s' h (hf s x s1 hx hq)

/-- A successful party-loop step leaves the state unchanged: the only
normalized name the runtime can produce is empty, which the loop
discards. -/
theorem addPartyPy_ok (s : List PyParty × List String) (p : PyParty)
    (s₁ : List PyParty × List String) (h : addPartyPy s p = .ok s₁) : s₁ = s := by
  unfold addPartyPy at h
  rcases hn : normalize_name_py p.name with e | v
  · simp only [hn] at h
    exact Except.noConfusion h
  · simp only [hn] at h
    have hv := normalize_name_py_ok p.name v hn
    subst hv
    rw [if_neg (by simp)] at h
    injection h with h
    exact h.symm

/-- A successful party fold returns its input state. -/
theorem partyFoldM_ok (l : List PyParty) :
    ∀ (s s' : List PyParty × List String), l.foldlM addPartyPy s = .ok s' → s' = s := by
  induction l with
  | nil => intro s s' h; injection h with h; exact h.symm
  | cons p ps ih =>
    intro s s' h
    rcases hx : addPartyPy s p with e | s1
    · rw [List.foldlM_cons, hx, exbind_error] at h; exact Except.noConfusion h
    · rw [List.foldlM_cons, hx, exbind_ok] at h
      rw [ih s1 s' h, addPartyPy_ok s p s1 hx]

/-- Refolding the party loop over a state it produced succeeds with that
state. -/
theorem partyFoldM_idem (l : List PyParty) (s s' : List PyParty × List String)
    (h : l.foldlM addPartyPy s = .ok s') : l.foldlM addPartyPy s' = .ok s' := by
  have he := partyFoldM_ok l s s' h
  rw [he]
  rw [he] at h
  exact h

/-- The work loop raises nothing: the monadic fold is the pure fold. -/
theorem workFoldM_eq (l : List PyWork) :
    ∀ s : List PyWork × List String,
      l.foldlM addWorkPy s = .ok (l.foldl addWorkPure s) := by
  induction l with
  | nil => intro s; rfl
  | cons w ws ih =>
    intro s
    rw [List.foldlM_cons, List.foldl_cons,
      show addWorkPy s w = .ok (addWorkPure s w) from rfl, exbind_ok]
    exact ih (addWorkPure s w)

/-- A work whose key is empty or already seen leaves the loop state
unchanged. -/
theorem addWorkPure_fixed (s : List PyWork × List String) (w : PyWork)
    (h : workKeyPy w = "" ∨ workKeyPy w ∈ s.2) : addWorkPure s w = s := by
  have hc : ¬(workKeyPy w ≠ "" ∧ workKeyPy w ∉ s.2) := by
    rcases h with h | h
    · exact fun hc => hc.1 h
    · exact fun hc => hc.2 h
  simp only [addWorkPure, if_neg hc]

/-- Work-key absorption is monotone under further loop steps. -/
theorem addWorkPure_absorb_mono (s : List PyWork × List String) (w v : PyWork)
    (h : workKeyPy w = "" ∨ workKeyPy w ∈ s.2) :
    workKeyPy w = "" ∨ workKeyPy w ∈ (addWorkPure s v).2 := by
  rcases h with h | h
  · exact Or.inl h
  · right
    unfold addWorkPure
    split
    · exact List.mem_append_left _ h
    · exact h

/-- After its own loop step, a work is absorbed. -/
theorem addWorkPure_absorbs (s : List PyWork × List String) (w : PyWork) :
    workKeyPy w = "" ∨ workKeyPy w ∈ (addWorkPure s w).2 := by
  unfold addWorkPure
  split
  · exact Or.inr (List.mem_append_right _ (List.mem_singleton.mpr rfl))
  · next hc =>
    push_neg at hc
    by_cases hk : workKeyPy w = ""
    · exact Or.inl hk
    · exact Or.inr (hc hk)

/-- The work loop keeps `seen_works` equal to the keys of the merged
list and duplicate-free. -/
theorem addWorkPure_inv (s : List PyWork × List String) (w : PyWork)
    (h : s.2 = s.1.map workKeyPy ∧ s.2.Nodup) :
    (addWorkPure s w).2 = (addWorkPure s w).1.map workKeyPy ∧
      (addWorkPure s w).2.Nodup := by
  unfold addWorkPure
  split
  · next hc =>
    exact ⟨by simp [h.1],
      List.Nodup.append h.2 (List.nodup_singleton _) (by simp [hc.2])⟩
  · exact h

/-- Refolding the work loop over a state it produced returns that
state. -/
theorem workFoldM_idem (l : List PyWork) (s s' : List PyWork × List String)
    (h : l.foldlM addWorkPy s = .ok s') : l.foldlM addWorkPy s' = .ok s' := by
  rw [workFoldM_eq] at h
  injection h with h
  rw [workFoldM_eq, ← h]
  exact congrArg Except.ok
    (foldl_twice addWorkPure_fixed addWorkPure_absorb_mono addWorkPure_absorbs l s)

/-- A successful share-key evaluation returns exactly `shareKeyPy`. -/
theorem shareKeyEval_ok (r : PyShare) (k : String × String × ℚ)
    (h : shareKeyEval r = .ok k) : k = shareKeyPy r := by
  unfold shareKeyEval at h
  rcases hn : normalize_name_py r.party_name with e | v
  · simp only [hn] at h
    exact Except.noConfusion h
  · simp only [hn] at h
    have hv := normalize_name_py_ok r.party_name v hn
    subst hv
    rcases hty : r.royalty_type with _ | t
    · simp only [hty] at h
      exact Except.noConfusion h
    · simp only [hty] at h
      rcases hpv : r.percentage with _ | sp | q
      · simp only [hpv] at h
        exact Except.noConfusion h
      · rcases hf : pyFloatOfString sp with _ | q
        · simp only [hpv, hf] at h
          exact Except.noConfusion h
        · simp only [hpv, hf] at h
          injection h with h
          rw [← h]
          simp [shareKeyPy, pctOf, hty, hpv, hf]
      · simp only [hpv] at h
        injection h with h
        rw [← h]
        simp [shareKeyPy, pctOf, hty, hpv]

/-- A successful share-loop step is the pure step at the evaluated
key. -/
theorem addSharePy_ok (s : List PyShare × List (String × String × ℚ)) (r : PyShare)
    (s₁ : List PyShare × List (String × String × ℚ)) (h : addSharePy s r = .ok s₁) :
    shareKeyEval r = .ok (shareKeyPy r) ∧ s₁ = addSharePure s r (shareKeyPy r) := by
  unfold addSharePy at h
  rcases hk : shareKeyEval r with e | k
  · simp only [hk] at h
    exact Except.noConfusion h
  · simp only [hk] at h
    have hkk := shareKeyEval_ok r k hk
    subst hkk
    injection h with h
    exact ⟨rfl, h.symm⟩

/-- Whatever the share loop has seen stays seen. -/
theorem shareFoldM_mono (l : List PyShare) :
    ∀ (s s' : List PyShare × List (String × String × ℚ)),
      l.foldlM addSharePy s = .ok s' → ∀ x ∈ s.2, x ∈ s'.2 := by
  induction l with
  | nil => intro s s' h x hx; injection h with h; rw [← h]; exact hx
  | cons r rs ih =>
    intro s s' h x hx
    rcases ha : addSharePy s r with e | s1
    · rw [List.foldlM_cons, ha, exbind_error] at h; exact Except.noConfusion h
    · rw [List.foldlM_cons, ha, exbind_ok] at h
      apply ih s1 s' h
      rw [(addSharePy_ok s r s1 ha).2]
      unfold addSharePure
      split
      · exact List.mem_append_left _ hx
      · exact hx

/-- After a successful share fold, every folded share evaluates cleanly
and its key is recorded. -/
theorem shareFoldM_keys (l : List PyShare) :
    ∀ (s s' : List PyShare × List (String × String × ℚ)),
      l.foldlM addSharePy s = .ok s' →
      ∀ r ∈ l, shareKeyEval r = .ok (shareKeyPy r) ∧ shareKeyPy r ∈ s'.2 := by
  induction l with
  | nil => intro s s' h r hr; cases hr
  | cons r0 rs ih =>
    intro s s' h r hr
    rcases ha : addSharePy s r0 with e | s1
    · rw [List.foldlM_cons, ha, exbind_error] at h; exact Except.noConfusion h
    · rw [List.foldlM_cons, ha, exbind_ok] at h
      obtain ⟨hk, hs1⟩ := addSharePy_ok s r0 s1 ha
      rcases List.mem_cons.mp hr with hr | hr
      · rw [hr]
        refine ⟨hk, shareFoldM_mono rs s1 s' h _ ?_⟩
        rw [hs1]
        unfold addSharePure
        split
        · exact List.mem_append_right _ (List.mem_singleton.mpr rfl)
        · next hc => exact not_not.mp hc
      · exact ih s1 s' h r hr

/-- Refolding the share loop over a state it produced returns that
state. -/
theorem shareFoldM_idem (l : List PyShare)
    (s s' : List PyShare × List (String × String × ℚ))
    (h : l.foldlM addSharePy s = .ok s') : l.foldlM addSharePy s' = .ok s' := by
  apply mfoldlM_fixed
  intro r hr
  obtain ⟨hk, hmem⟩ := shareFoldM_keys l s s' h r hr
  unfold addSharePy
  simp only [hk]
  unfold addSharePure
  rw [if_neg (not_not_intro hmem)]

/-- The share loop keeps `seen_shares` equal to the keys of the merged
list and duplicate-free. -/
theorem addSharePure_inv (s : List PyShare × List (String × String × ℚ))
    (r : PyShare) (h : s.2 = s.1.map shareKeyPy ∧ s.2.Nodup) :
    (addSharePure s r (shareKeyPy r)).2 =
        (addSharePure s r (shareKeyPy r)).1.map shareKeyPy ∧
      (addSharePure s r (shareKeyPy r)).2.Nodup := by
  unfold addSharePure
  split
  · next hc =>
    exact ⟨by simp [h.1],
      List.Nodup.append h.2 (List.nodup_singleton _) (by simp [hc])⟩
  · exact h

/-- A successful contract iteration decomposes into its three
successful loops. -/
theorem processContractPy_ok (acc acc' : MergeStatePy) (c : PyContractData)
    (h : processContractPy acc c = .ok acc') :
    ∃ p w sA, c.parties.foldlM addPartyPy acc.1 = .ok p ∧
      c.works.foldlM addWorkPy acc.2.1 = .ok w ∧
      c.royalty_shares.foldlM addSharePy acc.2.2 = .ok sA ∧
      acc' = (p, w, sA) := by
  unfold processContractPy at h
  rcases hp : c.parties.foldlM addPartyPy acc.1 with e | p
  · simp only [hp] at h
    exact Except.noConfusion h
  · simp only [hp] at h
    rcases hw : c.works.foldlM addWorkPy acc.2.1 with e | w
    · simp only [hw] at h
      exact Except.noConfusion h
    · simp only [hw] at h
      rcases hs : c.royalty_shares.foldlM addSharePy acc.2.2 with e | sA
      · simp only [hs] at h
        exact Except.noConfusion h
      · simp only [hs] at h
        injection h with h
        exact ⟨p, w, sA, rfl, rfl, rfl, h.symm⟩

/-- Reprocessing a contract over the state it produced returns that
state. -/
theorem processContractPy_idem (acc acc' : MergeStatePy) (c : PyContractData)
    (h : processContractPy acc c = .ok acc') :
    processContractPy acc' c = .ok acc' := by
  obtain ⟨p, w, sA, hp, hw, hs, rfl⟩ := processContractPy_ok acc acc' c h
  have h1 := partyFoldM_idem c.parties acc.1 p hp
  have h2 := workFoldM_idem c.works acc.2.1 w hw
  have h3 := shareFoldM_idem c.royalty_shares acc.2.2 sA hs
  unfold processContractPy
  simp only [h1, h2, h3]

/-- Each contract iteration preserves the merge-state invariant: the
party state stays empty (the runtime admits only falsy names), and the
work and share seen-sets stay equal to the merged-list keys and
duplicate-free. -/
theorem processContractPy_inv (acc acc' : MergeStatePy) (c : PyContractData)
    (h : processContractPy acc c = .ok acc')
    (hq : acc.1 = ([], []) ∧
      (acc.2.1.2 = acc.2.1.1.map workKeyPy ∧ acc.2.1.2.Nodup) ∧
      (acc.2.2.2 = acc.2.2.1.map shareKeyPy ∧ acc.2.2.2.Nodup)) :
    acc'.1 = ([], []) ∧
      (acc'.2.1.2 = acc'.2.1.1.map workKeyPy ∧ acc'.2.1.2.Nodup) ∧
      (acc'.2.2.2 = acc'.2.2.1.map shareKeyPy ∧ acc'.2.2.2.Nodup) := by
  obtain ⟨p, w, sA, hp, hw, hs, rfl⟩ := processContractPy_ok acc acc' c h
  refine ⟨?_, ?_, ?_⟩
  · show p = ([], [])
    rw [partyFoldM_ok c.parties acc.1 p hp, hq.1]
  · show w.2 = w.1.map workKeyPy ∧ w.2.Nodup
    rw [workFoldM_eq] at hw
    injection hw with hw
    rw [← hw]
    exact foldl_state_inv addWorkPure_inv c.works acc.2.1 hq.2.1
  · show sA.2 = sA.1.map shareKeyPy ∧ sA.2.Nodup
    refine mfoldlM_inv addSharePy (fun s => s.2 = s.1.map shareKeyPy ∧ s.2.Nodup)
      ?_ c.royalty_shares acc.2.2 sA hs hq.2.2
    intro s r s1 h1 hq1
    rw [(addSharePy_ok s r s1 h1).2]
    exact addSharePure_inv s r hq1

/-- A successful merge decomposes into a successful contract fold whose
final state carries the merged lists. -/
theorem merge_contracts_py_ok (cs : List PyContractData) (r : PyContractData)
    (h : merge_contracts_py cs = .ok r) :
    ∃ acc, cs.foldlM processContractPy mergeInit = .ok acc ∧
      r.parties = acc.1.1 ∧ r.works = acc.2.1.1 ∧ r.royalty_shares = acc.2.2.1 := by
  unfold merge_contracts_py at h
  rcases ha : cs.foldlM processContractPy mergeInit with e | acc
  · simp only [ha] at h
    exact Except.noConfusion h
  · simp only [ha] at h
    injection h with h
    exact ⟨acc, rfl, by rw [← h], by rw [← h], by rw [← h]⟩

/-- State of every record the merge returns: no parties, duplicate-free
work keys, duplicate-free share keys. -/
theorem merge_ok_state (cs : List PyContractData) (r : PyContractData)
    (h : merge_contracts_py cs = .ok r) :
    r.parties = [] ∧ (r.works.map workKeyPy).Nodup ∧
      (r.royalty_shares.map shareKeyPy).Nodup := by
  obtain ⟨acc, ha, hp, hw, hs⟩ := merge_contracts_py_ok cs r h
  have hQ := mfoldlM_inv processContractPy
    (fun acc => acc.1 = ([], []) ∧
      (acc.2.1.2 = acc.2.1.1.map workKeyPy ∧ acc.2.1.2.Nodup) ∧
      (acc.2.2.2 = acc.2.2.1.map shareKeyPy ∧ acc.2.2.2.Nodup))
    (fun s c s' h1 hq1 => processContractPy_inv s s' c h1 hq1)
    cs mergeInit acc ha ⟨rfl, ⟨rfl, List.nodup_nil⟩, ⟨rfl, List.nodup_nil⟩⟩
  refine ⟨?_, ?_, ?_⟩
  · rw [hp, hQ.1]
  · rw [hw, ← hQ.2.1.1]
    exact hQ.2.1.2
  · rw [hs, ← hQ.2.2.1]
    exact hQ.2.2.2

/-- C1 (amended).  On every run of `merge_contracts` that returns, the
merged record has no two parties with the same normalized name (a
returning run admits only falsy party names, so its merged parties list
is empty and the condition holds vacuously), no two works with the same
trimmed lower-cased title, and no two royalty shares with the same
source identity key -- whose royalty-type component is lower-cased and
stripped only, not passed through the parenthetical-stripping normalize
the claim describes. -/
theorem merge_contracts_key_nodup (cs : List PyContractData) (r : PyContractData)
    (h : merge_contracts_py cs = .ok r) :
    (r.parties.map specPartyKey).Nodup ∧ (r.works.map workKeyPy).Nodup ∧
      (r.royalty_shares.map shareKeyPy).Nodup := by
  obtain ⟨hp, hw, hs⟩ := merge_ok_state cs r h
  exact ⟨by simp [hp], hw, hs⟩

/-- C1 (witness).  The invariants at the record the merge returns on a
contract with duplicate work titles and two distinct-type shares. -/
theorem merge_contracts_key_nodup_witness :
    (falsyMerged.parties.map specPartyKey).Nodup ∧
    (falsyMerged.works.map workKeyPy).Nodup ∧
    (falsyMerged.royalty_shares.map shareKeyPy).Nodup :=
  merge_contracts_key_nodup [falsyNamesPyContract] falsyMerged (by decide)

/-- C1 (counterexample to the claim as stated).  On `dupTypePyContract`
the merge genuinely returns (all party names are falsy, so nothing
raises), and the returned record carries two shares whose claim-side
keys -- royalty type passed through the parenthetical-stripping
normalize -- coincide: the claimed invariant is false on the code. -/
theorem merge_share_key_spec_counterexample :
    merge_contracts_py [dupTypePyContract] = .ok dupTypeMerged ∧
    ¬ ((dupTypeMerged.parties.map specPartyKey).Nodup ∧
      (dupTypeMerged.works.map workKeyPy).Nodup ∧
      (dupTypeMerged.royalty_shares.map specShareKey).Nodup) := by
  decide

/-- C5.  Merging a record with itself is idempotent in every outcome the
program exhibits: when `merge_contracts` returns on `[c]`, it returns on
`[c, c]` with the same parties, works and royalty shares; when it raises
on `[c]`, it raises the same exception on `[c, c]`. -/
theorem merge_contracts_idempotent (c : PyContractData) :
    (∀ r, merge_contracts_py [c] = .ok r →
      ∃ r', merge_contracts_py [c, c] = .ok r' ∧ r'.parties = r.parties ∧
        r'.works = r.works ∧ r'.royalty_shares = r.royalty_shares) ∧
    (∀ e, merge_contracts_py [c] = .error e →
      merge_contracts_py [c, c] = .error e) := by
  constructor
  · intro r h
    unfold merge_contracts_py at h ⊢
    simp only [List.foldlM_cons, List.foldlM_nil] at h ⊢
    rcases hp : processContractPy mergeInit c with e | acc
    · simp only [hp, exbind_error] at h
      exact Except.noConfusion h
    · have hpi := processContractPy_idem mergeInit acc c hp
      simp only [hp, hpi, exbind_ok, expure_eq_ok] at h ⊢
      injection h with h
      subst h
      exact ⟨_, rfl, rfl, rfl, rfl⟩
  · intro e h
    unfold merge_contracts_py at h ⊢
    simp only [List.foldlM_cons, List.foldlM_nil] at h ⊢
    rcases hp : processContractPy mergeInit c with e0 | acc
    · simp only [hp, exbind_error] at h ⊢
      injection h with h
      rw [h]
    · simp only [hp, exbind_ok, expure_eq_ok] at h
      exact Except.noConfusion h

/-- C5 (witness).  Idempotence at concrete inputs: a contract the merge
accepts yields the same three lists merged once or twice, and a contract
it raises on raises identically when doubled. -/
theorem merge_contracts_idempotent_witness :
    (∃ r', merge_contracts_py [falsyNamesPyContract, falsyNamesPyContract] = .ok r' ∧
      r'.parties = falsyMerged.parties ∧ r'.works = falsyMerged.works ∧
      r'.royalty_shares = falsyMerged.royalty_shares) ∧
    merge_contracts_py [janeDoePyContract, janeDoePyContract] = .error .nameError :=
  ⟨(merge_contracts_idempotent falsyNamesPyContract).1 falsyMerged (by decide),
   (merge_contracts_idempotent janeDoePyContract).2 .nameError (by decide)⟩

/-- C9 (code bug).  A contract with named contributors makes the merge
raise `NameError` (the module never imports `re`), so no merged parties
list exists in which the contributors could be represented. -/
theorem merge_party_representation_code_bug :
    merge_contracts_py [bandPyContract] = .error .nameError := by
  decide

/-- C2.  The calculator fails with the invalid-contract error when works
or royalty shares are missing, fails with the empty-statement error when
the aggregate is empty (and the contract checks pass), and returns an
empty list, not an error, when no streaming share exists. -/
theorem calculate_payments_precondition_errors (cd : ContractData)
    (st : List (String × ℚ)) :
    ((cd.works = [] ∨ cd.royalty_shares = []) →
      calculate_payments_from_data cd st = .error .invalidContractData) ∧
    (cd.works ≠ [] → cd.royalty_shares ≠ [] → st = [] →
      calculate_payments_from_data cd st = .error .emptyStatement) ∧
    (cd.works ≠ [] → cd.royalty_shares ≠ [] → st ≠ [] → streamingShares cd = [] →
      calculate_payments_from_data cd st = .ok []) := by
  refine ⟨?_, ?_, ?_⟩
  · intro h
    rcases h with h | h
    · simp [calculate_payments_from_data, h]
    · by_cases hw : cd.works = [] <;> simp [calculate_payments_from_data, hw, h]
  · intro hw hs hst
    simp [calculate_payments_from_data, hw, hs, hst]
  · intro hw hs hst hstr
    simp [calculate_payments_from_data, hw, hs, hst, hstr]

/-- C2 (witness).  The three outcomes at concrete inputs: no works, empty
statement, publishing-only shares. -/
theorem calculate_payments_precondition_errors_witness :
    calculate_payments_from_data emptyContract exampleStatement =
      .error .invalidContractData ∧
    calculate_payments_from_data exampleContract [] = .error .emptyStatement ∧
    calculate_payments_from_data publishingContract exampleStatement = .ok [] :=
  ⟨(calculate_payments_precondition_errors emptyContract exampleStatement).1 (Or.inl rfl),
   (calculate_payments_precondition_errors exampleContract []).2.1
     (by decide) (by decide) rfl,
   (calculate_payments_precondition_errors publishingContract exampleStatement).2.2
     (by decide) (by decide) (by decide) (by decide)⟩

/-- Every record the payment loop accumulates carries
`amount_to_pay = total_royalty * percentage / 100`. -/
theorem paymentStep_amount (cd : ContractData) (st : List (String × ℚ)) :
    ∀ (ws : List Work) (acc : List RoyaltyPayment),
      (∀ pay ∈ acc, pay.amount_to_pay = pay.total_royalty * pay.percentage / 100) →
      ∀ pay ∈ ws.foldl (paymentStep cd st) acc,
        pay.amount_to_pay = pay.total_royalty * pay.percentage / 100 := by
  intro ws
  induction ws with
  | nil => intro acc h; exact h
  | cons w ws ih =>
    intro acc h
    apply ih
    intro pay hp
    rcases hfind : find_matching_song w.title st with _ | ⟨t, total⟩ <;>
      simp only [paymentStep, hfind] at hp
    · exact h pay hp
    · by_cases ht : t = ""
      · rw [if_neg (by simp [ht])] at hp
        exact h pay hp
      · rw [if_pos ht] at hp
        rcases List.mem_append.mp hp with hp | hp
        · exact h pay hp
        · rcases List.mem_map.mp hp with ⟨sh, _, rfl⟩
          show qMul total (qDiv sh.percentage 100) = total * sh.percentage / 100
          rw [qMul_eq, qDiv_eq, mul_div_assoc]

/-- C3.  Each emitted record has `amount_to_pay` exactly
`total_royalty * percentage / 100`, with no rounding; on the statement
`{"Home": 1000.0}` with streaming shares Alice 60 and Bob 40 the records
carry 600 and 400. -/
theorem payment_amount_exact :
    (∀ (cd : ContractData) (st : List (String × ℚ)) (l : List RoyaltyPayment),
        calculate_payments_from_data cd st = .ok l →
        ∀ pay ∈ l, pay.amount_to_pay = pay.total_royalty * pay.percentage / 100) ∧
    calculate_payments_from_data exampleContract exampleStatement =
      .ok [examplePaymentA, examplePaymentB] := by
  constructor
  · intro cd st l h pay hp
    unfold calculate_payments_from_data at h
    split_ifs at h with h1 h2 h3 h4
    · injection h with h'
      subst h'
      cases hp
    · injection h with h'
      subst h'
      exact paymentStep_amount cd st cd.works [] (by intro pay hp; cases hp) pay hp
  · decide

/-- C3 (witness).  The Alice record of Example 1 satisfies the amount
equation. -/
theorem payment_amount_exact_witness :
    examplePaymentA.amount_to_pay =
      examplePaymentA.total_royalty * examplePaymentA.percentage / 100 :=
  payment_amount_exact.1 exampleContract exampleStatement
    [examplePaymentA, examplePaymentB] payment_amount_exact.2
    examplePaymentA (List.mem_cons_self _ _)

/-- Length added by one work of the payment loop: the full streaming
block if the matched title is truthy, nothing otherwise. -/
theorem paymentStep_length (cd : ContractData) (st : List (String × ℚ))
    (acc : List RoyaltyPayment) (w : Work) :
    (paymentStep cd st acc w).length =
      acc.length + if matchedTruthy st w then (streamingShares cd).length else 0 := by
  rcases hfind : find_matching_song w.title st with _ | ⟨t, total⟩
  · simp [paymentStep, matchedTruthy, hfind]
  · simp only [paymentStep, matchedTruthy, hfind]
    by_cases ht : t = ""
    · simp [ht]
    · simp [ht]

/-- Record count of the payment loop: matched-truthy works times
streaming shares. -/
theorem calc_foldl_length (cd : ContractData) (st : List (String × ℚ)) :
    ∀ (ws : List Work) (acc : List RoyaltyPayment),
      (ws.foldl (paymentStep cd st) acc).length =
        acc.length + (ws.filter (matchedTruthy st)).length * (streamingShares cd).length := by
  intro ws
  induction ws with
  | nil => intro acc; simp
  | cons w ws ih =>
    intro acc
    rw [List.foldl_cons, ih, paymentStep_length]
    by_cases h : matchedTruthy st w
    · simp only [h, if_true, List.filter_cons, List.length_cons]
      ring
    · simp [h, List.filter_cons]

/-- One loop iteration appends exactly the block of the work at hand. -/
theorem paymentStep_eq (cd : ContractData) (st : List (String × ℚ))
    (acc : List RoyaltyPayment) (w : Work) :
    paymentStep cd st acc w = acc ++ workPayments cd st w := by
  unfold paymentStep workPayments
  rcases hfind : find_matching_song w.title st with _ | ⟨t, total⟩
  · simp
  · by_cases ht : t = ""
    · simp [ht]
    · simp [ht]

/-- The payment loop produces the concatenation of the per-work
blocks, in work order. -/
theorem calc_foldl_eq (cd : ContractData) (st : List (String × ℚ)) :
    ∀ (ws : List Work) (acc : List RoyaltyPayment),
      ws.foldl (paymentStep cd st) acc = acc ++ (ws.map (workPayments cd st)).flatten := by
  intro ws
  induction ws with
  | nil => intro acc; simp
  | cons w ws ih =>
    intro acc
    rw [List.foldl_cons, ih, paymentStep_eq]
    simp

/-- A concatenation of empty blocks is empty. -/
theorem join_map_nil {A B : Type} (f : A → List B) (l : List A)
    (h : ∀ a ∈ l, f a = []) : (l.map f).flatten = [] := by
  induction l with
  | nil => rfl
  | cons x xs ih =>
    simp [h x (List.mem_cons_self x xs),
      ih (fun a ha => h a (List.mem_cons_of_mem x ha))]

/-- C10 (amended).  A successful run emits exactly the per-work blocks
in work order: the output list is the concatenation, over the works in
the merged order, of the streaming-share-mapped records of each work
whose matched statement title is truthy — one record per (truthy-matched
work, streaming share) pair, in share order within each work — and its
length is the number of truthy-matched works times the number of
streaming shares. -/
theorem payment_records_per_pair (cd : ContractData) (st : List (String × ℚ))
    (l : List RoyaltyPayment) (h : calculate_payments_from_data cd st = .ok l) :
    l = (cd.works.map (workPayments cd st)).flatten ∧
    l.length =
      (cd.works.filter (matchedTruthy st)).length * (streamingShares cd).length := by
  unfold calculate_payments_from_data at h
  split_ifs at h with h1 h2 h3 h4
  · injection h with h'
    subst h'
    have hz : ∀ w ∈ cd.works, workPayments cd st w = [] := by
      intro w _
      unfold workPayments
      rcases hfind : find_matching_song w.title st with _ | ⟨t, total⟩
      · simp
      · by_cases ht : t = ""
        · simp [ht]
        · simp [ht, h4]
    constructor
    · rw [join_map_nil (workPayments cd st) cd.works hz]
    · simp [h4]
  · injection h with h'
    subst h'
    exact ⟨by simpa using calc_foldl_eq cd st cd.works [],
      by simpa using calc_foldl_length cd st cd.works []⟩

/-- C10 (witness).  On Example 1 the output is exactly the single block
of the work "Home": one record per streaming share, 1 matched work times
2 shares = 2 records. -/
theorem payment_records_per_pair_witness :
    ([examplePaymentA, examplePaymentB] : List RoyaltyPayment) =
      (exampleContract.works.map
        (workPayments exampleContract exampleStatement)).flatten ∧
    ([examplePaymentA, examplePaymentB] : List RoyaltyPayment).length =
      (exampleContract.works.filter (matchedTruthy exampleStatement)).length *
        (streamingShares exampleContract).length :=
  payment_records_per_pair exampleContract exampleStatement
    [examplePaymentA, examplePaymentB] (by decide)

/-- C10 (counterexample to the claim as stated).  A work with an empty
title is matched by the Song Matcher (the matcher returns a hit), there
is one streaming share, so the claim predicts one record; the run emits
none, because the `if matching_song:` truthiness test drops the match. -/
theorem payment_records_truthiness_counterexample :
    calculate_payments_from_data blankTitleContract blankTitleStatement = .ok [] ∧
    (blankTitleContract.works.filter
      (fun w => (find_matching_song w.title blankTitleStatement).isSome)).length *
      (streamingShares blankTitleContract).length = 1 := by
  decide

/-- C4.  The matcher is exact-stage first (first exact hit wins), falls
back to the substring stage only when the exact stage finds nothing,
returns the not-found signal when both stages fail, always exact-matches
a work titled as a statement title, and matches
`"Midnight (feat. X)"` against `"midnight"` at the substring stage. -/
theorem find_matching_song_stages :
    (∀ (w : String) (st : List (String × ℚ)),
      (∀ p, st.find? (exactPredicate w) = some p → find_matching_song w st = some p) ∧
      (st.find? (exactPredicate w) = none →
        find_matching_song w st = st.find? (substrPredicate w)) ∧
      (st.find? (exactPredicate w) = none → st.find? (substrPredicate w) = none →
        find_matching_song w st = none) ∧
      (∀ a, (w, a) ∈ st → (st.find? (exactPredicate w)).isSome)) ∧
    List.find? (exactPredicate "Midnight (feat. X)") [("midnight", 250)] = none ∧
    find_matching_song "Midnight (feat. X)" [("midnight", 250)] =
      some ("midnight", 250) := by
  refine ⟨?_, by decide, by decide⟩
  intro w st
  refine ⟨?_, ?_, ?_, ?_⟩
  · intro p h
    simp [find_matching_song, h]
  · intro h
    simp [find_matching_song, h]
  · intro h1 h2
    simp [find_matching_song, h1, h2]
  · intro a ha
    rw [List.find?_isSome]
    exact ⟨(w, a), ha, by simp [exactPredicate]⟩

/-- C4 (witness).  Each stage at a concrete input: an exact hit, the
substring fallback, the not-found signal, and reflexive exact
matching. -/
theorem find_matching_song_stages_witness :
    find_matching_song "Home" [("Home", 10)] = some ("Home", 10) ∧
    find_matching_song "Midnight (feat. X)" [("midnight", 250)] =
      List.find? (substrPredicate "Midnight (feat. X)") [("midnight", 250)] ∧
    find_matching_song "Gone" [("xyz", 1)] = none ∧
    (List.find? (exactPredicate "Home") [("Home", 10)]).isSome :=
  ⟨(find_matching_song_stages.1 "Home" [("Home", 10)]).1 ("Home", 10) (by decide),
   (find_matching_song_stages.1 "Midnight (feat. X)" [("midnight", 250)]).2.1 (by decide),
   (find_matching_song_stages.1 "Gone" [("xyz", 1)]).2.2.1 (by decide) (by decide),
   (find_matching_song_stages.1 "Home" [("Home", 10)]).2.2.2 10 (by decide)⟩

/-- C6.  Payable-column detection is two-pass: the first header passing
the priority test wins; only if none does, the first header passing the
loose test with the withheld/deduction/fee exclusions wins (so a pass-2
result never contains an excluded word); both passes empty is the
column-not-found failure; and on
`["release title", "net payable", "withheld amount"]` the column is
`"net payable"`. -/
theorem find_payable_column_two_pass :
    (∀ (hs : List String),
      (∀ h, hs.find? payablePass1 = some h → find_payable_column hs = some h) ∧
      (hs.find? payablePass1 = none →
        find_payable_column hs = hs.find? payablePass2) ∧
      (hs.find? payablePass1 = none → hs.find? payablePass2 = none →
        find_payable_column hs = none) ∧
      (∀ h, hs.find? payablePass1 = none → find_payable_column hs = some h →
        pyIn "withheld" h = false ∧ pyIn "deduction" h = false ∧
          pyIn "fee" h = false)) ∧
    find_payable_column ["release title", "net payable", "withheld amount"] =
      some "net payable" := by
  refine ⟨?_, by decide⟩
  intro hs
  refine ⟨?_, ?_, ?_, ?_⟩
  · intro h hfind
    simp [find_payable_column, hfind]
  · intro hfind
    simp [find_payable_column, hfind]
  · intro h1 h2
    simp [find_payable_column, h1, h2]
  · intro h h1 h2
    rw [find_payable_column, h1] at h2
    have hp := List.find?_some h2
    simp only [payablePass2, List.any_eq_true, Bool.and_eq_true,
      Bool.not_eq_true'] at hp
    rcases hp with ⟨v, _, ⟨⟨_, hw⟩, hd⟩, hf⟩
    exact ⟨hw, hd, hf⟩

/-- C6 (witness).  The theorem applied at the spec example headers and at
a pass-2-only header list. -/
theorem find_payable_column_two_pass_witness :
    find_payable_column ["release title", "net payable", "withheld amount"] =
      some "net payable" ∧
    find_payable_column ["gross earnings"] =
      List.find? payablePass2 ["gross earnings"] ∧
    find_payable_column ["songs"] = none ∧
    (pyIn "withheld" "gross earnings" = false ∧
      pyIn "deduction" "gross earnings" = false ∧
      pyIn "fee" "gross earnings" = false) :=
  ⟨(find_payable_column_two_pass.1 ["release title", "net payable", "withheld amount"]).1
      "net payable" (by decide),
   (find_payable_column_two_pass.1 ["gross earnings"]).2.1 (by decide),
   (find_payable_column_two_pass.1 ["songs"]).2.2.1 (by decide) (by decide),
   (find_payable_column_two_pass.1 ["gross earnings"]).2.2.2 "gross earnings"
     (by decide) (by decide)⟩

/-- C7 (code bug).  With a blank first header cell the detected columns
keep their positions in the *filtered* header list, so the data cells are
read one column to the left: the sheet whose rows carry
`("x", "Home", 100)` aggregates to nothing (the title cell read is
`"x"`, the payable cell read is `"Home"`, which fails float conversion),
whereas the same sheet with the first column labelled aggregates to
`{"Home": 100}`. -/
theorem read_statement_blank_header_shift :
    read_royalty_statement blankHeaderRow exampleDataRows none none = .ok [] ∧
    read_royalty_statement fullHeaderRow exampleDataRows none none =
      .ok [("Home", 100)] := by
  decide

/-- C8 (code bug).  `merge_contracts` raises at runtime on ordinary and
on malformed records: `NameError` on any non-empty party name (the module
never imports `re`), `AttributeError` on a `None` royalty type,
`ValueError` on a non-numeric percentage string; only the empty input
merges cleanly. -/
theorem merge_contracts_runtime_raises :
    merge_contracts_py [janeDoePyContract] = .error .nameError ∧
    merge_contracts_py [noneTypePyContract] = .error .attributeError ∧
    merge_contracts_py [strPctPyContract] = .error .valueError ∧
    merge_contracts_py [] =
      .ok { parties := [], works := [], royalty_shares := [],
            contract_summary := some "" } := by
  decide
